import Mathlib

/-!
Shallow embedding of `src/cpp/main.cpp` of the spring_mass_solver repository.

The program has one piece of logic, `GetDifferenceMatrix`, which allocates a
`rows × cols` matrix of doubles (via `Eigen::MatrixXd`), zeroes it, and then
iterates a hardcoded 4×4 loop writing `-1.0` on the diagonal and `+1.0` on the
band `i - j == diagonal + 1`.  The entry point `main` parses two
comma-separated float flags (`absl::StrSplit` + `std::stof`) and calls the
builder with the list sizes.

Matrix entries only ever take the exactly representable double values
`-1.0`, `0.0`, `1.0`, and the parsed floats in the statements below are small
decimal values, so doubles are embedded as rationals (`ℚ`).

An `Eigen::MatrixXd` write `A(r, c) = v` asserts `r < rows && c < cols`
(out of bounds is an assertion failure / undefined behaviour in C++), so a
write is embedded totally: an in-bounds write updates the entry function and
an out-of-bounds write sets the `oob` error flag and leaves entries alone.
-/

/-- Embedding of `Eigen::MatrixXd`: logical extents, an entry function
(row, column ↦ value), and a flag recording whether any write was
out of bounds (in C++ such a write is an assertion failure / UB). -/
structure EMat where
  rows : Nat
  cols : Nat
  entry : Nat → Nat → ℚ
  oob : Bool

/-- Embedding of a single Eigen write `A(r, c) = v`: in bounds it updates
the entry function, out of bounds it sets the error flag. -/
def matWrite (A : EMat) (r c : Nat) (v : ℚ) : EMat :=
  if r < A.rows ∧ c < A.cols then
    { A with entry := fun r' c' => if r' = r ∧ c' = c then v else A.entry r' c' }
  else
    { A with oob := true }

/-- Embedding of `GetDifferenceMatrix(rows, cols, diagonal)` from
`src/cpp/main.cpp`: allocate `rows × cols`, `setZero`, then
`for i in [0,4) { for j in [0,4) { if (i == j) A(j,i) = -1.0;
else if (i - j == diagonal + 1) A(j,i) = 1.0; } }`.
The subtraction `i - j` is on C++ `int` values, hence `Int` here; the C++
bool-to-int conversion `diagonal + 1` is `(if diagonal then 1 else 0) + 1`. -/
def GetDifferenceMatrix (rows cols : Nat) (diagonal : Bool) : EMat :=
  let A : EMat := { rows := rows, cols := cols, entry := fun _ _ => 0, oob := false }
  (List.range 4).foldl (fun A i =>
    (List.range 4).foldl (fun A j =>
      if i = j then
        matWrite A j i (-1)
      else if (i : Int) - (j : Int) = (if diagonal then 1 else 0) + 1 then
        matWrite A j i 1
      else
        A) A) A

/-- The band rule as the spec states it: entry `(j, i)` is `-1.0` when
`i == j`, `+1.0` when `i - j == 1` if the flag is false (respectively
`i - j == 2` if it is true), and `0.0` otherwise. -/
def bandEntry (diagonal : Bool) (j i : Nat) : ℚ :=
  if i = j then -1
  else if (i : Int) - (j : Int) = (if diagonal then 2 else 1) then 1
  else 0

/-- Embedding of `absl::StrSplit(s, ",")`: split on every comma; the empty
string yields one empty token and a trailing comma yields a trailing empty
token (the behaviour documented by abseil). -/
def splitComma : List Char → List (List Char)
  | [] => [[]]
  | c :: rest =>
    if c = ',' then [] :: splitComma rest
    else
      match splitComma rest with
      | [] => [[c]]
      | t :: ts => (c :: t) :: ts

/-- Embedding of `std::stof(s)`: skip leading whitespace, then convert the
longest valid initial numeric substring (optional sign, decimal digits,
optional fraction); trailing non-numeric characters are ignored.  Returns
`none` (C++: throws `std::invalid_argument`) when no conversion can be
performed.  Exponents, hex and inf/nan forms are not exercised by the
inputs of this program and are not modelled. -/
def cppStof (s : List Char) : Option ℚ :=
  let cs := s.dropWhile (fun c => c = ' ' ∨ c = '\t' ∨ c = '\n' ∨ c = '\r')
  let signAndRest : Int × List Char :=
    match cs with
    | '+' :: rest => (1, rest)
    | '-' :: rest => (-1, rest)
    | _ => (1, cs)
  let sign := signAndRest.1
  let cs := signAndRest.2
  let intDigits := cs.takeWhile Char.isDigit
  let afterInt := cs.dropWhile Char.isDigit
  let fracDigits : List Char :=
    match afterInt with
    | '.' :: rest => rest.takeWhile Char.isDigit
    | _ => []
  if intDigits.isEmpty ∧ fracDigits.isEmpty then none
  else
    let ip : Nat := intDigits.foldl (fun a c => 10 * a + (c.toNat - 48)) 0
    let fp : Nat := fracDigits.foldl (fun a c => 10 * a + (c.toNat - 48)) 0
    let den : Nat := 10 ^ fracDigits.length
    some (mkRat (sign * (ip * den + fp)) den)

/-- Embedding of one flag-parsing loop of `main`: `for s in StrSplit(flag,
",") { v.push_back(std::stof(s)); }`.  The first token on which `stof`
throws aborts the whole loop with that error (the exception is uncaught). -/
def parseTokens : List (List Char) → Except String (List ℚ)
  | [] => .ok []
  | t :: ts =>
    match cppStof t with
    | none => .error "stof: no conversion"
    | some v =>
      match parseTokens ts with
      | .ok vs => .ok (v :: vs)
      | .error e => .error e

/-- Parse a comma-separated float flag the way `main` does. -/
def parseFloatList (s : String) : Except String (List ℚ) :=
  parseTokens (splitComma s.data)

/-- Embedding of the data flow of `main`: parse both flags, then call
`GetDifferenceMatrix(spring_constants.size(), masses.size(),
!(spring_constants.size() >= masses.size()))`. -/
def mainRun (spring_constants_flag masses_flag : String) : Except String EMat := do
  let spring_constants ← parseFloatList spring_constants_flag
  let masses ← parseFloatList masses_flag
  pure (GetDifferenceMatrix spring_constants.length masses.length
    (!(decide (spring_constants.length ≥ masses.length))))

/-- The entries of column `i` of the 4×4 difference matrix, read downwards
(row indices 0, 1, 2, 3). -/
def colEntries (d : Bool) (i : Nat) : List ℚ :=
  (List.range 4).map (fun j => (GetDifferenceMatrix 4 4 d).entry j i)

/-- Closed form of `GetDifferenceMatrix` when both requested extents are at
least 4: no write is out of bounds, and the entries are the band rule on
the top-left 4×4 block and zero elsewhere. -/
theorem getDiff_spec (rows cols : Nat) (d : Bool) (hr : 4 ≤ rows) (hc : 4 ≤ cols) :
    GetDifferenceMatrix rows cols d =
      { rows := rows, cols := cols,
        entry := fun j i => if j < 4 ∧ i < 4 then bandEntry d j i else 0,
        oob := false } := by
  have h0r : 0 < rows := by omega
  have h1r : 1 < rows := by omega
  have h2r : 2 < rows := by omega
  have h3r : 3 < rows := by omega
  have h0c : 0 < cols := by omega
  have h1c : 1 < cols := by omega
  have h2c : 2 < cols := by omega
  have h3c : 3 < cols := by omega
  cases d <;>
  · simp only [GetDifferenceMatrix, matWrite, List.range_succ, List.range_zero,
      List.nil_append, List.cons_append, List.foldl_cons, List.foldl_nil]
    norm_num [h0r, h1r, h2r, h3r, h0c, h1c, h2c, h3c]
    funext j i
    simp only [bandEntry]
    split_ifs <;> first | rfl | omega | exact absurd (by assumption) not_false

/-- If some token of the list has no numeric conversion, the parsing loop
aborts with an error. -/
theorem parseTokens_error_of_mem : ∀ (ts : List (List Char)) (t : List Char),
    t ∈ ts → cppStof t = none → ∃ e, parseTokens ts = .error e := by
  intro ts
  induction ts with
  | nil => intro t ht; exact absurd ht (List.not_mem_nil t)
  | cons hd tl ih =>
    intro t ht hbad
    rcases List.mem_cons.mp ht with h | h
    · subst h
      exact ⟨"stof: no conversion", by simp [parseTokens, hbad]⟩
    · rcases ih t h hbad with ⟨e, he⟩
      cases hhd : cppStof hd with
      | none => exact ⟨"stof: no conversion", by simp [parseTokens, hhd]⟩
      | some v => exact ⟨e, by simp [parseTokens, hhd, he]⟩

/-- C1: for `rows = cols = 4` and either flag value, `GetDifferenceMatrix`
returns a 4×4 matrix whose entry at `(j, i)` equals `-1.0` when `i == j`,
`+1.0` when `i - j == 1` if the flag is false (respectively `i - j == 2`
if it is true), and `0.0` otherwise, for every `i, j` in `[0, 4)`. -/
theorem c1_fixed_band_4x4 :
    (∀ d : Bool, (GetDifferenceMatrix 4 4 d).rows = 4 ∧
      (GetDifferenceMatrix 4 4 d).cols = 4) ∧
    (∀ d : Bool, ∀ j i : Fin 4,
      (GetDifferenceMatrix 4 4 d).entry j i = bandEntry d j i) := by
  decide

/-- C2: with flag values `"1,1,1,1"` and `"1,1,1"`, `main` does call
`GetDifferenceMatrix` with `rows = 4`, `cols = 3`, `diagonal = false`, and
the in-bounds entries of the result follow the band rule; but the hardcoded
4×4 loop also performs an out-of-bounds write (column index 3 in a matrix
with 3 columns), so the claimed clean return of a 4×3 matrix does not hold
of the C++ code (Eigen bounds assertion failure / undefined behaviour). -/
theorem c2_end_to_end_call :
    mainRun "1,1,1,1" "1,1,1" = Except.ok (GetDifferenceMatrix 4 3 false) ∧
    (GetDifferenceMatrix 4 3 false).oob = true ∧
    (∀ j : Fin 4, ∀ i : Fin 3,
      (GetDifferenceMatrix 4 3 false).entry j i = bandEntry false j i) :=
  ⟨by rfl, by decide, by decide⟩

/-- C3: when `rows ≥ 4` and `cols ≥ 4`, every write of the nested 4×4 loop
is within the allocated `rows × cols` bounds (the out-of-bounds error
branch of the total embedding is unreachable); and there is an input with
`rows < 4` or `cols < 4` on which some write is out of bounds. -/
theorem c3_write_bounds :
    (∀ (rows cols : Nat) (d : Bool), 4 ≤ rows → 4 ≤ cols →
      (GetDifferenceMatrix rows cols d).oob = false) ∧
    (∃ (rows cols : Nat) (d : Bool), (rows < 4 ∨ cols < 4) ∧
      (GetDifferenceMatrix rows cols d).oob = true) := by
  constructor
  · intro rows cols d hr hc
    rw [getDiff_spec rows cols d hr hc]
  · exact ⟨4, 3, false, Or.inr (by decide), by decide⟩

/-- Witness for C3 at `rows = 5`, `cols = 6`, `diagonal = true`. -/
theorem c3_write_bounds_witness :
    (GetDifferenceMatrix 5 6 true).oob = false :=
  c3_write_bounds.1 5 6 true (by decide) (by decide)

/-- C4: `GetDifferenceMatrix` ignores `rows` and `cols` for its loop
bounds: for every `rows ≥ 4`, `cols ≥ 4` and either flag value, every
entry of the returned matrix with row index `≥ 4` or column index `≥ 4` is
`0.0`, and the top-left 4×4 block is the band-rule block, independent of
`rows` and `cols`. -/
theorem c4_extents_ignored (rows cols : Nat) (d : Bool)
    (hr : 4 ≤ rows) (hc : 4 ≤ cols) :
    (∀ j i : Nat, j < rows → i < cols → 4 ≤ j ∨ 4 ≤ i →
      (GetDifferenceMatrix rows cols d).entry j i = 0) ∧
    (∀ j i : Nat, j < 4 → i < 4 →
      (GetDifferenceMatrix rows cols d).entry j i = bandEntry d j i) := by
  rw [getDiff_spec rows cols d hr hc]
  constructor
  · intro j i _ _ h
    show (if j < 4 ∧ i < 4 then bandEntry d j i else 0) = 0
    rw [if_neg (by omega)]
  · intro j i hj hi
    show (if j < 4 ∧ i < 4 then bandEntry d j i else 0) = bandEntry d j i
    rw [if_pos ⟨hj, hi⟩]

/-- Witness for C4 at `rows = 6`, `cols = 5`: entry `(4, 0)` is zero and
entry `(0, 1)` is the band-rule value. -/
theorem c4_extents_ignored_witness :
    (GetDifferenceMatrix 6 5 false).entry 4 0 = 0 ∧
    (GetDifferenceMatrix 6 5 false).entry 0 1 = bandEntry false 0 1 :=
  ⟨(c4_extents_ignored 6 5 false (by decide) (by decide)).1 4 0 (by decide)
      (by decide) (Or.inl (by decide)),
    (c4_extents_ignored 6 5 false (by decide) (by decide)).2 0 1 (by decide)
      (by decide)⟩

/-- C5: whenever both flags parse successfully, `main` calls
`GetDifferenceMatrix` with `rows` the spring-constant count, `cols` the
mass count, and the diagonal boolean true exactly when the mass count is
strictly greater than the spring-constant count. -/
theorem c5_call_arguments (s m : String) (sl ml : List ℚ)
    (hs : parseFloatList s = .ok sl) (hm : parseFloatList m = .ok ml) :
    mainRun s m = Except.ok
      (GetDifferenceMatrix sl.length ml.length (decide (ml.length > sl.length))) := by
  have hd : (!(decide (sl.length ≥ ml.length))) = decide (ml.length > sl.length) := by
    rw [← decide_not]
    exact decide_eq_decide.mpr (by omega)
  simp only [mainRun, hs, hm, bind, Except.bind, pure, Except.pure, hd]

/-- Witness for C5: two spring constants and three masses give the call
`GetDifferenceMatrix 2 3 true`. -/
theorem c5_call_arguments_witness :
    mainRun "1,2" "1,2,3" = Except.ok (GetDifferenceMatrix 2 3 true) :=
  c5_call_arguments "1,2" "1,2,3" [1, 2] [1, 2, 3] (by rfl) (by rfl)

/-- C6: the matrix built by `main` depends only on the lengths of the two
parsed lists, not on their numeric values: two runs whose flag strings
parse to lists of equal respective lengths produce identical results. -/
theorem c6_lengths_only (s1 m1 s2 m2 : String) (l1 k1 l2 k2 : List ℚ)
    (h1 : parseFloatList s1 = .ok l1) (h2 : parseFloatList m1 = .ok k1)
    (h3 : parseFloatList s2 = .ok l2) (h4 : parseFloatList m2 = .ok k2)
    (hl : l1.length = l2.length) (hk : k1.length = k2.length) :
    mainRun s1 m1 = mainRun s2 m2 := by
  simp only [mainRun, h1, h2, h3, h4, bind, Except.bind, hl, hk]

/-- Witness for C6: runs with different numeric values but equal list
lengths coincide. -/
theorem c6_lengths_only_witness :
    mainRun "1,2" "9" = mainRun "7,8" "5" :=
  c6_lengths_only "1,2" "9" "7,8" "5" [1, 2] [9] [7, 8] [5]
    (by rfl) (by rfl) (by rfl) (by rfl) (by rfl) (by rfl)

/-- C7: parsing a comma-separated numeric-list flag that contains a token
with no numeric conversion fails with an error rather than silently
producing a truncated list. -/
theorem c7_nonnumeric_token_fails (s : String) (t : List Char)
    (ht : t ∈ splitComma s.data) (hbad : cppStof t = none) :
    ∃ e, parseFloatList s = .error e :=
  parseTokens_error_of_mem (splitComma s.data) t ht hbad

/-- Witness for C7: `"1,x,3"` contains the token `"x"`, which has no
numeric conversion, and parsing it errors. -/
theorem c7_nonnumeric_token_fails_witness :
    ∃ e, parseFloatList "1,x,3" = .error e :=
  c7_nonnumeric_token_fails "1,x,3" ['x'] (by decide) (by rfl)

/-- C8: parsing the string `"1,2,3"` (splitting on commas and converting
each token to a float) yields the ordered sequence `[1.0, 2.0, 3.0]`. -/
theorem c8_parse_basic_list :
    parseFloatList "1,2,3" = .ok [1, 2, 3] := by rfl

/-- C9: for `rows = cols = 4` and either flag value, with
`offset = diagonal + 1`, every column `i` with `offset ≤ i < 4` contains
exactly one `-1.0` entry and exactly one `+1.0` entry and sums to `0.0`,
while every column `i < offset` contains exactly one `-1.0` entry and no
`+1.0` entry and sums to `-1.0`. -/
theorem c9_column_invariant :
    ∀ d : Bool, ∀ i : Fin 4,
      (if (if d then 1 else 0) + 1 ≤ (i : Nat) then
        (colEntries d i).count (-1) = 1 ∧ (colEntries d i).count 1 = 1 ∧
          (colEntries d i).sum = 0
      else
        (colEntries d i).count (-1) = 1 ∧ (colEntries d i).count 1 = 0 ∧
          (colEntries d i).sum = -1) := by
  intro d i
  cases d <;> fin_cases i <;>
    norm_num [colEntries, GetDifferenceMatrix, matWrite, List.range_succ]

/-- C10: the numeric-list parsing accepts a token made of a numeric head
followed by non-numeric characters and converts it to the value of that
head: `"1x,2"` parses successfully to `[1.0, 2.0]` with no error. -/
theorem c10_numeric_head_accepted :
    cppStof "1x".data = some 1 ∧ parseFloatList "1x,2" = .ok [1, 2] :=
  ⟨by rfl, by rfl⟩
